import Mathlib

/-!
Shallow embedding of the asset-synchronisation and patch-application engine
of `updater.py` (an offline mirror / patcher for a web application).

Conventions of the embedding:
* Python strings are Lean `String` (operations defined on `String.data`).
* The local file system is modelled either as a path-to-contents map
  `String → Option String` (path to file contents, for the patch engine) or
  as a list of existing paths (for the template reconciler, where only
  existence matters).
* Fallible operations return `Except`/`Option`.
* `int(...)`/`str.split`/`str.replace`/`in` are modelled by executable
  Lean functions faithful to the Python semantics (restricted to ASCII
  digits and ASCII whitespace, which is what the mirrored data contains).
-/

namespace Updater

/-- ASCII decimal digit, mirroring what `\d` and `int()` accept on the
ASCII fragment used by this program. -/
def isDigitChar (c : Char) : Bool := 48 ≤ c.toNat && c.toNat ≤ 57

/-- ASCII whitespace as stripped by Python `int()` before parsing. -/
def isSpaceChar (c : Char) : Bool :=
  c.toNat = 32 || c.toNat = 9 || c.toNat = 10 || c.toNat = 11 ||
  c.toNat = 12 || c.toNat = 13

/-- Python `s.split(",")` on the character-list level: splits at every
comma and always returns at least one (possibly empty) field. -/
def splitCommaList : List Char → List (List Char)
  | [] => [[]]
  | c :: rest =>
    if c = ',' then [] :: splitCommaList rest
    else
      match splitCommaList rest with
      | s :: ss => (c :: s) :: ss
      | [] => [[c]]

/-- Python `s.split(",")`. -/
def splitComma (s : String) : List String :=
  (splitCommaList s.data).map (fun l => ⟨l⟩)

/-- Python `s.replace(" ", "")`: removes every space character. -/
def removeSpaces (s : String) : String := ⟨s.data.filter (fun c => c ≠ ' ')⟩

/-- Python substring test `sub in s` (always true for the empty string). -/
def pyContains (s sub : List Char) : Bool :=
  s.tails.any (fun t => sub.isPrefixOf t)

/-- Worker for `pyReplace`; the fuel is an upper bound on the number of
steps, each step consumes at least one character of the scanned list, so
fuel = length of the list is always enough. -/
def pyReplaceFuel (find repl : List Char) : Nat → List Char → List Char
  | _, [] => []
  | 0, l => l
  | fuel + 1, c :: rest =>
    if !find.isEmpty && find.isPrefixOf (c :: rest) then
      repl ++ pyReplaceFuel find repl fuel (List.drop (find.length - 1) rest)
    else
      c :: pyReplaceFuel find repl fuel rest

/-- Python `s.replace(find, repl)`: replaces every non-overlapping
occurrence, leftmost first; with an empty `find`, Python inserts `repl`
before every character and at the end. -/
def pyReplace (s find repl : String) : String :=
  if find.data.isEmpty then
    ⟨repl.data ++ s.data.foldr (fun c acc => c :: (repl.data ++ acc)) []⟩
  else
    ⟨pyReplaceFuel find.data repl.data s.data.length s.data⟩

/-- Python `str.strip()` of ASCII whitespace (as done by `int()`). -/
def pyStrip (l : List Char) : List Char :=
  ((l.dropWhile isSpaceChar).reverse.dropWhile isSpaceChar).reverse

/-- Validity of the part of an integer literal after its first digit; the
flag records whether the previous character was an underscore (Python
allows single underscores only between digits). -/
def pyIntRestF : Bool → List Char → Bool
  | prevU, [] => !prevU
  | prevU, c :: rest =>
    if c = '_' then !prevU && pyIntRestF true rest
    else isDigitChar c && pyIntRestF false rest

/-- Validity of the digit body of a Python integer literal (after an
optional sign): nonempty, starts with a digit, single underscores only
between digits. -/
def pyIntBodyValid : List Char → Bool
  | [] => false
  | c :: rest => isDigitChar c && pyIntRestF false rest

/-- Numeric value of a digit list (underscores already removed). -/
def digitsValue (l : List Char) : Nat :=
  l.foldl (fun acc c => 10 * acc + (c.toNat - 48)) 0

/-- Value of a valid integer-literal body. -/
def pyBodyValue (l : List Char) : Nat :=
  digitsValue (l.filter (fun c => c ≠ '_'))

/-- Python `int(s)`: strip whitespace, optional sign, digit body; `none`
models the `ValueError` raised on anything else. -/
def pyInt (s : String) : Option Int :=
  match pyStrip s.data with
  | '-' :: rest =>
    if pyIntBodyValid rest then some (-(pyBodyValue rest : Int)) else none
  | '+' :: rest =>
    if pyIntBodyValid rest then some ((pyBodyValue rest : Int)) else none
  | l => if pyIntBodyValid l then some ((pyBodyValue l : Int)) else none

-- Constants from the source.
def LOCAL_ROOT : String := "www.photopea.com/"
def REMOTE_WEBSITE : String := "https://photopea.com/"

/-! ## Font catalog decoder (`decompress_font_list`) -/

/-- the `Font` dataclass of the source. -/
structure Font where
  ff : String
  fsf : String
  psn : String
  flg : Int
  cat : Int
  url : String
deriving DecidableEq, Repr

/-- Exceptions `decompress_font_list` can raise: a `ValueError` from
unpacking `font_entry.split(",")` into six variables, or a `ValueError`
from `int(...)`. -/
inductive DecodeErr where
  | splitArity (entry : String)
  | intParse (s : String)
deriving DecidableEq, Repr

/-- the running `prev_ff, prev_fsf, prev_flg, prev_cat` state of the
decoder (flags/category kept as strings exactly as in the source). -/
structure DecSt where
  pff : String
  pfsf : String
  pflg : String
  pcat : String
deriving DecidableEq, Repr

/-- Python `cur or prev` on strings: the empty string is falsy. -/
def inheritF (cur prev : String) : String := if cur = "" then prev else cur

/-- Python `if not psn: psn = (ff + "-" + fsf).replace(" ", "")` /
`elif psn == "a": psn = ff.replace(" ", "")`. -/
def resolvePsn (psn0 ff fsf : String) : String :=
  if psn0 = "" then removeSpaces (ff ++ "-" ++ fsf)
  else if psn0 = "a" then removeSpaces ff else psn0

/-- Python `if not url: url = "fs/" + psn + ".otf"` /
`elif url == "a": url = "gf/" + psn + ".otf"`. -/
def resolveUrl (url0 psn : String) : String :=
  if url0 = "" then "fs/" ++ psn ++ ".otf"
  else if url0 = "a" then "gf/" ++ psn ++ ".otf" else url0

/-- Body of one loop iteration of `decompress_font_list`, given the six
fields of the current entry: inheritance (`x or prev_x`), postScriptName
and sourcePath derivation, integer parsing (`int(flg)` evaluated first,
as in `Font(ff, fsf, psn, int(flg), int(cat), url)`), and the next
state. -/
def decompressFields (st : DecSt) (ff0 fsf0 psn0 flg0 cat0 url0 : String) :
    Except DecodeErr (Font × DecSt) :=
  match pyInt (inheritF flg0 st.pflg), pyInt (inheritF cat0 st.pcat) with
  | none, _ => .error (.intParse (inheritF flg0 st.pflg))
  | some _, none => .error (.intParse (inheritF cat0 st.pcat))
  | some fi, some ci =>
    .ok ({ ff := inheritF ff0 st.pff,
           fsf := inheritF fsf0 st.pfsf,
           psn := resolvePsn psn0 (inheritF ff0 st.pff) (inheritF fsf0 st.pfsf),
           flg := fi, cat := ci,
           url := resolveUrl url0 (resolvePsn psn0 (inheritF ff0 st.pff) (inheritF fsf0 st.pfsf)) },
         { pff := inheritF ff0 st.pff, pfsf := inheritF fsf0 st.pfsf,
           pflg := inheritF flg0 st.pflg, pcat := inheritF cat0 st.pcat })

/-- One loop iteration of `decompress_font_list`: split the entry on
commas (exactly six fields, otherwise the unpacking raises), then resolve
the fields. -/
def decompressStep (st : DecSt) (entry : String) : Except DecodeErr (Font × DecSt) :=
  match splitComma entry with
  | [ff0, fsf0, psn0, flg0, cat0, url0] => decompressFields st ff0 fsf0 psn0 flg0 cat0 url0
  | _ => .error (.splitArity entry)

/-- the loop of `decompress_font_list`, threading the previous-record
state; an exception at any entry aborts the whole decode. -/
def decompressGo (st : DecSt) : List String → Except DecodeErr (List Font)
  | [] => .ok []
  | e :: rest =>
    match decompressStep st e with
    | .error err => .error err
    | .ok (f, st') =>
      match decompressGo st' rest with
      | .error err => .error err
      | .ok fs => .ok (f :: fs)

/-- the function `decompress_font_list(flist)`, fully consumed (as every caller in the
source does); initial previous values are `"", "", "0", "0"`. -/
def decompress_font_list (flist : List String) : Except DecodeErr (List Font) :=
  decompressGo ⟨"", "", "0", "0"⟩ flist

/-- the function `generate_font_manifest`: the manifest written to
`font-manifest.json` is the decoded record list; a decode exception
escapes the function (the loop is not inside the `try`), so no manifest
is written. -/
def generate_font_manifest (flist : List String) : Except DecodeErr (List Font) :=
  decompress_font_list flist

/-! ## Single-file downloader (`download_file`) -/

/-- Outcome of `requests.get(remote_url, stream=True)` plus the body
stream: `connError` is a `RequestException` raised by `get` itself;
`resp status chunks interrupt` is a response whose body, read through
`iter_content`, yields the given chunks — `interrupt = some n` means a
`RequestException` is raised while fetching chunk `n` (after `n` chunks
were delivered), `none` means the stream completes. -/
inductive FetchResult where
  | connError
  | resp (status : Nat) (chunks : List String) (interrupt : Option Nat)

/-- the function `download_file(remote_url, local_path)`, observed as its effect on
the contents of the local file. On a non-200 status or an exception from
`get`, the function returns before `open(local_path, "wb")`, so the old
contents survive. On status 200, `open(..., "wb")` truncates the file
first, and each delivered chunk is appended; an exception mid-stream
therefore leaves the concatenation of the chunks delivered so far. -/
def download_file (fetch : FetchResult) (old : Option String) : Option String :=
  match fetch with
  | .connError => old
  | .resp status chunks interrupt =>
    if status ≠ 200 then old
    else
      match interrupt with
      | none => some (String.join chunks)
      | some n => some (String.join (chunks.take n))

/-! ## Asset resolver and core-file batch (`download_core_files`, `main`) -/

/-- one item of `initial_urls`: a remote path and the local name it is
stored under (they differ only for the `templates/?type=0&rsrc=` entry). -/
structure UrlItem where
  remote : String
  localName : String
deriving DecidableEq, Repr

/-- the static `initial_urls` list of `download_core_files`, in source
order. -/
def initial_urls : List UrlItem := [
  ⟨"index.html", "index.html"⟩, ⟨"manifest.json", "manifest.json"⟩,
  ⟨"promo/thumb256.png", "promo/thumb256.png"⟩,
  ⟨"rsrc/basic/basic.zip", "rsrc/basic/basic.zip"⟩,
  ⟨"code/ext/hb.wasm", "code/ext/hb.wasm"⟩,
  ⟨"code/ext/fribidi.wasm", "code/ext/fribidi.wasm"⟩,
  ⟨"papi/tpls.json", "papi/tpls.json"⟩,
  ⟨"rsrc/fonts/fonts.png", "rsrc/fonts/fonts.png"⟩,
  ⟨"code/storages/deviceStorage.html", "code/storages/deviceStorage.html"⟩,
  ⟨"code/storages/googledriveStorage.html", "code/storages/googledriveStorage.html"⟩,
  ⟨"code/storages/dropboxStorage.html", "code/storages/dropboxStorage.html"⟩,
  ⟨"img/nft.png", "img/nft.png"⟩,
  ⟨"templates/?type=0&rsrc=", "templates/index.html"⟩,
  ⟨"templates/templates.js", "templates/templates.js"⟩,
  ⟨"templates/templates.css", "templates/templates.css"⟩,
  ⟨"plugins/gallery.json", "plugins/gallery.json"⟩,
  ⟨"plugins/gallery.html", "plugins/gallery.html"⟩,
  ⟨"img/wows_logo.png", "img/wows_logo.png"⟩,
  ⟨"promo/icon512.png", "promo/icon512.png"⟩]

/-- Backtracking step of the regex match: having matched the literal
prefix, with `rest` the remainder and a maximal digit run of length `m`
at its head, try group sizes `m, m-1, ..., 1` for `(\d+)`; the following
character is the regex `.` (any character except a newline) and then the
literal suffix must follow (as a prefix of what remains: `re.search` does
not anchor the end). Returns the matched text (`group(0)`). -/
def reTryDigits (pre suf : List Char) (rest : List Char) : Nat → Option (List Char)
  | 0 => none
  | k + 1 =>
    match rest.drop (k + 1) with
    | c :: r2 =>
      if suf.isPrefixOf r2 && c ≠ '\n' then
        some (pre ++ rest.take (k + 1) ++ c :: suf)
      else reTryDigits pre suf rest k
    | [] => reTryDigits pre suf rest k

/-- Try to match the pattern `pre ++ (\d+) ++ . ++ suf` at the start of
`s` (Python `\d+` is greedy with backtracking). -/
def reMatchHere (pre suf : List Char) (s : List Char) : Option (List Char) :=
  if pre.isPrefixOf s then
    let rest := s.drop pre.length
    reTryDigits pre suf rest (rest.takeWhile isDigitChar).length
  else none

/-- Leftmost-match search: scan the start positions left to right. -/
def reSearchAux (pre suf : List Char) : List Char → Option (List Char)
  | [] => reMatchHere pre suf []
  | c :: rest =>
    match reMatchHere pre suf (c :: rest) with
    | some r => some r
    | none => reSearchAux pre suf rest

/-- Python `re.search(pre + r"(\d+)" + "." + suf, s)`, returning `group(0)`;
this is the shape of all four patterns in `regex_patterns` (the `.`
before the extension is an unescaped regex dot). -/
def reSearch (pre suf s : String) : Option String :=
  (reSearchAux pre.data suf.data s.data).map (fun l => ⟨l⟩)

/-- the loop `for name, pattern in regex_patterns.items()`: for each of
the four named patterns, in insertion order, record the first match (if
any) as a `(name, path)` pair. -/
def found_dynamic_paths (index_content : String) : List (String × String) :=
  (match reSearch "style/all" "css" index_content with
   | some p => [("style", p)] | none => []) ++
  (match reSearch "code/ext/ext" "js" index_content with
   | some p => [("ext", p)] | none => []) ++
  (match reSearch "code/dbs/DBS" "js" index_content with
   | some p => [("dbs", p)] | none => []) ++
  (match reSearch "code/pp/pp" "js" index_content with
   | some p => [("pp", p)] | none => [])

/-- result of `download_core_files`: the `(remote URL, local path)` pairs
it downloads, in order, and the `dynamic_paths` dictionary it returns. -/
structure CoreFilesResult where
  downloads : List (String × String)
  dynamic_paths : List (String × String)
deriving DecidableEq, Repr

/-- the function `download_core_files()`, given the text of the fetched
`index.html`. It downloads `index.html`, scans it for the four dynamic
patterns (a missing pattern is only a warning here), then downloads the
whole `urls_to_download` batch — the static list plus every found
dynamic path — unconditionally, and returns the found paths. -/
def download_core_files (index_content : String) : CoreFilesResult :=
  let found := found_dynamic_paths index_content
  let urls := initial_urls ++ found.map (fun np => UrlItem.mk np.2 np.2)
  { downloads :=
      (REMOTE_WEBSITE ++ "index.html", LOCAL_ROOT ++ "index.html") ::
      urls.map (fun it => (REMOTE_WEBSITE ++ it.remote, LOCAL_ROOT ++ it.localName)),
    dynamic_paths := found }

/-- the guard in `main` right after step 1:
`if not dynamic_paths or not all(k in dynamic_paths for k in ["pp", "dbs"])`,
which calls `sys.exit(1)`. -/
def main_aborts (dp : List (String × String)) : Bool :=
  dp.isEmpty ||
  !(dp.any (fun x => x.1 = "pp") && dp.any (fun x => x.1 = "dbs"))

/-- phases of `main` that execute, given the bootstrap document text:
step 1 (`download_core_files`, which itself performs the core-file bulk
download) always runs; if the required-pattern check fails, `sys.exit(1)`
stops everything else; otherwise steps 2–5 follow (the optional
`--fonts`/`--templates` phases and the second abort inside `parse_db`
are outside this model and noted where relevant). -/
def main_phases (index_content : String) : List String :=
  if main_aborts (download_core_files index_content).dynamic_paths then
    ["download_core_files"]
  else
    ["download_core_files", "parse_db", "generate_font_manifest",
     "download_default_fonts", "apply_patches"]

/-! ## Patch engine (`find_and_replace`, `apply_patches`) -/

/-- a file tree: path to file contents (`none` = file does not exist). -/
abbrev FS : Type := String → Option String

/-- the function `find_and_replace(file_path, find, replace)`: read the file (a
missing or unreadable file is logged and the rule skipped), return
untouched if `find not in content`, otherwise write back
`content.replace(find, replace)`. -/
def find_and_replace (fs : FS) (path find repl : String) : FS :=
  match fs path with
  | none => fs
  | some content =>
    if pyContains content.data find.data then
      fun p => if p = path then some (pyReplace content find repl) else fs p
    else fs

/-- the single-quote character, used inside two patch strings. -/
def sq : String := String.singleton (Char.ofNat 39)

/-- find string of the allow-any-port patch (Python `'"\'$!|"))'`). -/
def portFind : String := "\"" ++ sq ++ "$!|\"))"

/-- find string of the force-enable-Remove-BG patch. -/
def yyFind : String := "(\"~yy\")"

/-- the function `apply_patches(pp_path)`: with a falsy `pp_path` nothing happens;
otherwise the eleven `find_and_replace` rules run in source order over
the pp bundle, `index.html` and `dropboxStorage.html`. -/
def apply_patches (pp_path : String) (fs : FS) : FS :=
  if pp_path = "" then fs
  else
    let pp := LOCAL_ROOT ++ pp_path
    let idx := LOCAL_ROOT ++ "index.html"
    let dbx := LOCAL_ROOT ++ "code/storages/dropboxStorage.html"
    let fs := find_and_replace fs pp portFind (portFind ++ "||true")
    let fs := find_and_replace fs idx "//www.google-analytics.com/analytics.js" ""
    let fs := find_and_replace fs idx "//www.googletagmanager.com" "#"
    let fs := find_and_replace fs pp "\"mirror.php?url=\"+encodeURIComponent" ""
    let fs := find_and_replace fs dbx "var redirectUri = window.location.href;"
      "var redirectUri = \"https://www.photopea.com/code/storages/dropboxStorage.html\";"
    let fs := find_and_replace fs idx "https://connect.facebook.net" ""
    let fs := find_and_replace fs idx "https://www.facebook.com" ""
    let fs := find_and_replace fs pp "\"&rsrc=\"" "\"\""
    let fs := find_and_replace fs pp "\"templates/?type=\"" "\"templates/index.html?type=\""
    let fs := find_and_replace fs pp "\"https://f000.backblazeb2.com/file/\"" "\"templates/file/\""
    let fs := find_and_replace fs pp yyFind (yyFind ++ "||true")
    fs

/-! ## Font synchronisation (`update_fonts`) -/

/-- Python `os.path.join(LOCAL_ROOT, "rsrc/fonts/", f.url)`: every component is
relative and the joined-on parts end in a separator, so the join is
plain concatenation. -/
def fontLocalPath (f : Font) : String := LOCAL_ROOT ++ "rsrc/fonts/" ++ f.url

/-- the function `update_fonts(db)`, observed as the list of fonts handed to the
worker pool: the catalog is decoded in full (a decode exception
escapes), then filtered by `not os.path.isfile(...)` — each font in the
filtered list is submitted to `download_font_worker` exactly once;
`isfile` gives which destination paths already exist locally. -/
def update_fonts (flist : List String) (isfile : String → Bool) :
    Except DecodeErr (List Font) :=
  match decompress_font_list flist with
  | .error e => .error e
  | .ok fonts => .ok (fonts.filter (fun f => !(isfile (fontLocalPath f))))

/-! ## Template reconciler (`update_templates`) -/

/-- one entry of the `list` field of `papi/tpls.json`; only the fields
the code reads are kept: `name` is `tpl_data[3]` (the file name) and
`src` is `tpl_data[4]` (the source-attribution field tested for
`"imgur.com"`). -/
structure TplEntry where
  name : String
  src : String
deriving DecidableEq, Repr

/-- Python `'psdshared' if "imgur.com" in tpl_data[4] else 'pp-resources'`. -/
def tplSubdir (t : TplEntry) : String :=
  if pyContains t.src.data "imgur.com".data then "psdshared" else "pp-resources"

/-- the remote URL derived for a template entry. -/
def tplRemote (t : TplEntry) : String :=
  "https://f000.backblazeb2.com/file/" ++ tplSubdir t ++ "/" ++ t.name

/-- Python `os.path.join(LOCAL_ROOT, "templates/file", subdir, tpl_data[3])`. -/
def tplLocal (t : TplEntry) : String :=
  LOCAL_ROOT ++ "templates/file/" ++ tplSubdir t ++ "/" ++ t.name

/-- which existing files the glob
`glob.glob(LOCAL_ROOT + 'templates/file/**/*.psd', recursive=True)`
returns: files under the template root whose name ends in `.psd`, where
no path component (glob `*`/`**`) matches a hidden (dot-initial) or
empty name. -/
def isTplPsd (p : String) : Bool :=
  "www.photopea.com/templates/file/".data.isPrefixOf p.data &&
  ".psd".data.isSuffixOf p.data &&
  ((p.data.drop "www.photopea.com/templates/file/".length).splitOnP (fun c => c = '/')).all
    (fun part => !part.isEmpty && part.head? ≠ some '.')

/-- the function `update_templates()`, observed as its effect on the set of existing
files (a list of paths). `tpls` is the parsed manifest list, `writes`
says for which remote URLs `download_file` ends up writing the local
file (success, or a mid-stream failure after the truncating open — a
clean failure writes nothing), `files0` the files existing beforehand.
The downloads run first, then every existing `*.psd` file under the
template root that is not in the just-computed referenced set is removed
(`os.remove` modelled as succeeding). -/
def update_templates (tpls : List TplEntry) (writes : String → Bool)
    (files0 : List String) : List String :=
  let templates_db := tpls.map (fun t => (tplRemote t, tplLocal t))
  let files1 := files0 ++ (templates_db.filter (fun td => writes td.1)).map (fun td => td.2)
  let referenced := templates_db.map (fun td => td.2)
  files1.filter (fun p => !(isTplPsd p && !(referenced.contains p)))

/-! ## Lemmas about the decoder step -/

/-- full characterisation of a successful `decompressFields` step. -/
theorem decompressFields_ok {st : DecSt} {a b c d g u : String} {f : Font} {st' : DecSt}
    (h : decompressFields st a b c d g u = .ok (f, st')) :
    f.ff = inheritF a st.pff ∧
    f.fsf = inheritF b st.pfsf ∧
    f.psn = resolvePsn c f.ff f.fsf ∧
    f.url = resolveUrl u f.psn ∧
    pyInt (inheritF d st.pflg) = some f.flg ∧
    pyInt (inheritF g st.pcat) = some f.cat ∧
    st' = ⟨f.ff, f.fsf, inheritF d st.pflg, inheritF g st.pcat⟩ := by
  unfold decompressFields at h
  cases hfi : pyInt (inheritF d st.pflg) with
  | none => rw [hfi] at h; exact absurd h (by simp)
  | some fi =>
    rw [hfi] at h
    cases hci : pyInt (inheritF g st.pcat) with
    | none => rw [hci] at h; exact absurd h (by simp)
    | some ci =>
      rw [hci] at h
      simp only [Except.ok.injEq, Prod.mk.injEq] at h
      obtain ⟨hf, hst⟩ := h
      subst hf
      subst hst
      exact ⟨rfl, rfl, rfl, rfl, rfl, rfl, rfl⟩

/-- a successful step on an entry that splits into the given six fields
is a `decompressFields` call. -/
theorem decompressStep_eq {st : DecSt} {e : String} {a b c d g u : String}
    (hs : splitComma e = [a, b, c, d, g, u]) :
    decompressStep st e = decompressFields st a b c d g u := by
  unfold decompressStep
  rw [hs]

/-- after a successful step, the carried state consists of the resolved
family and subfamily of the produced record and of flag/category strings
that parse to the produced record's integers. -/
theorem decompressStep_state {st : DecSt} {e : String} {f : Font} {st' : DecSt}
    (h : decompressStep st e = .ok (f, st')) :
    st'.pff = f.ff ∧ st'.pfsf = f.fsf ∧
    pyInt st'.pflg = some f.flg ∧ pyInt st'.pcat = some f.cat := by
  unfold decompressStep at h
  split at h
  · obtain ⟨_, _, _, _, hflg, hcat, hst⟩ := decompressFields_ok h
    subst hst
    exact ⟨rfl, rfl, hflg, hcat⟩
  · exact absurd h (by simp)

/-- induction workhorse for the delta-inheritance property: a successful
`decompressGo` run produces one record per entry, its first record
inherits empty fields from the starting state, and each later record
inherits empty fields from its predecessor record. -/
theorem decompressGo_spec (flist : List String) : ∀ (st : DecSt) (recs : List Font),
    decompressGo st flist = .ok recs →
    recs.length = flist.length ∧
    (∀ e r a b c d g u, flist.get? 0 = some e → recs.get? 0 = some r →
       splitComma e = [a, b, c, d, g, u] →
       (a = "" → r.ff = st.pff) ∧ (b = "" → r.fsf = st.pfsf) ∧
       (d = "" → pyInt st.pflg = some r.flg) ∧ (g = "" → pyInt st.pcat = some r.cat)) ∧
    (∀ i e r r' a b c d g u, flist.get? (i + 1) = some e →
       recs.get? i = some r → recs.get? (i + 1) = some r' →
       splitComma e = [a, b, c, d, g, u] →
       (a = "" → r'.ff = r.ff) ∧ (b = "" → r'.fsf = r.fsf) ∧
       (d = "" → r'.flg = r.flg) ∧ (g = "" → r'.cat = r.cat)) := by
  induction flist with
  | nil =>
    intro st recs h
    unfold decompressGo at h
    simp only [Except.ok.injEq] at h
    subst h
    refine ⟨rfl, ?_, ?_⟩ <;> intros <;> simp_all
  | cons e rest ih =>
    intro st recs h
    unfold decompressGo at h
    split at h
    · exact absurd h (by simp)
    next f st1 hstep =>
      split at h
      · exact absurd h (by simp)
      next fs hgo =>
        simp only [Except.ok.injEq] at h
        subst h
        obtain ⟨ihlen, ihfirst, ihcons⟩ := ih st1 fs hgo
        refine ⟨by simp [ihlen], ?_, ?_⟩
        · intro e0 r a b c d g u h0 hr0 hsplit
          rw [List.get?_cons_zero, Option.some.injEq] at h0 hr0
          subst h0
          subst hr0
          have hstep' : decompressFields st a b c d g u = .ok (f, st1) :=
            (decompressStep_eq hsplit) ▸ hstep
          obtain ⟨hff, hfsf, _, _, hflg, hcat, _⟩ := decompressFields_ok hstep'
          refine ⟨?_, ?_, ?_, ?_⟩ <;> intro hemp
          · rw [hff, hemp]; rfl
          · rw [hfsf, hemp]; rfl
          · rw [hemp] at hflg; exact hflg
          · rw [hemp] at hcat; exact hcat
        · intro i e0 r r' a b c d g u h0 hr hr' hsplit
          cases i with
          | zero =>
            rw [List.get?_cons_succ] at h0 hr'
            rw [List.get?_cons_zero, Option.some.injEq] at hr
            subst hr
            obtain ⟨hsff, hsfsf, hsflg, hscat⟩ := decompressStep_state hstep
            obtain ⟨pff', pfsf', pflg', pcat'⟩ := ihfirst e0 r' a b c d g u h0 hr' hsplit
            refine ⟨?_, ?_, ?_, ?_⟩ <;> intro hemp
            · rw [pff' hemp, hsff]
            · rw [pfsf' hemp, hsfsf]
            · have := (pflg' hemp).symm.trans hsflg
              exact Option.some.injEq _ _ ▸ this
            · have := (pcat' hemp).symm.trans hscat
              exact Option.some.injEq _ _ ▸ this
          | succ i0 =>
            rw [List.get?_cons_succ] at h0 hr hr'
            exact ihcons i0 e0 r r' a b c d g u h0 hr hr' hsplit

/-! ## Claim C6 -/

/-- C6: in `decompress_font_list`, whenever entry `i > 0` has an empty
family (resp. subfamily, flags, category) field, decoded record `i`
carries the same family (resp. subfamily, flags, category) as decoded
record `i - 1`; for the first entry, empty family/subfamily default to
the empty string and empty flags/category default to `0`. -/
theorem decompress_inherits_previous_record (flist : List String) (recs : List Font)
    (hok : decompress_font_list flist = .ok recs) :
    (∀ i e r r' a b c d g u, flist.get? (i + 1) = some e →
       recs.get? i = some r → recs.get? (i + 1) = some r' →
       splitComma e = [a, b, c, d, g, u] →
       (a = "" → r'.ff = r.ff) ∧ (b = "" → r'.fsf = r.fsf) ∧
       (d = "" → r'.flg = r.flg) ∧ (g = "" → r'.cat = r.cat)) ∧
    (∀ e r a b c d g u, flist.get? 0 = some e → recs.get? 0 = some r →
       splitComma e = [a, b, c, d, g, u] →
       (a = "" → r.ff = "") ∧ (b = "" → r.fsf = "") ∧
       (d = "" → r.flg = 0) ∧ (g = "" → r.cat = 0)) := by
  obtain ⟨_, hfirst, hcons⟩ := decompressGo_spec flist ⟨"", "", "0", "0"⟩ recs hok
  refine ⟨hcons, ?_⟩
  intro e r a b c d g u h0 hr0 hsplit
  obtain ⟨pff, pfsf, pflg, pcat⟩ := hfirst e r a b c d g u h0 hr0 hsplit
  refine ⟨pff, pfsf, ?_, ?_⟩ <;> intro hemp
  · have h1 : (some (0 : Int) : Option Int) = some r.flg := pflg hemp
    exact (Option.some.injEq _ _ ▸ h1).symm
  · have h1 : (some (0 : Int) : Option Int) = some r.cat := pcat hemp
    exact (Option.some.injEq _ _ ▸ h1).symm

/-- C6 witness: a concrete two-entry list in which the second entry
leaves family, subfamily, flags and category empty and inherits all four
from the first record. -/
theorem decompress_inherits_previous_record_witness :
    decompress_font_list ["Ab,Cd,x,1,2,u", ",,y,,,v"] =
      .ok [⟨"Ab", "Cd", "x", 1, 2, "u"⟩, ⟨"Ab", "Cd", "y", 1, 2, "v"⟩] ∧
    (Font.mk "Ab" "Cd" "y" 1 2 "v").ff = (Font.mk "Ab" "Cd" "x" 1 2 "u").ff ∧
    (Font.mk "Ab" "Cd" "y" 1 2 "v").flg = (Font.mk "Ab" "Cd" "x" 1 2 "u").flg := by
  have hok : decompress_font_list ["Ab,Cd,x,1,2,u", ",,y,,,v"] =
      .ok [⟨"Ab", "Cd", "x", 1, 2, "u"⟩, ⟨"Ab", "Cd", "y", 1, 2, "v"⟩] := rfl
  have h := (decompress_inherits_previous_record _ _ hok).1 0 ",,y,,,v"
    ⟨"Ab", "Cd", "x", 1, 2, "u"⟩ ⟨"Ab", "Cd", "y", 1, 2, "v"⟩
    "" "" "y" "" "" "v" rfl rfl rfl rfl
  exact ⟨hok, h.1 rfl, h.2.2.1 rfl⟩

/-! ## Claims C7 and C8 -/

/-- C7: in one decoded entry, an empty postScriptName field yields the
post-inheritance family + "-" + subfamily with all spaces removed, the
sentinel "a" yields the family with spaces removed, and any other value
is used verbatim. -/
theorem decompress_psn_derivation (st : DecSt) (e : String) (a b c d g u : String)
    (f : Font) (st' : DecSt) (hsplit : splitComma e = [a, b, c, d, g, u])
    (hok : decompressStep st e = .ok (f, st')) :
    (c = "" → f.psn = removeSpaces (f.ff ++ "-" ++ f.fsf)) ∧
    (c = "a" → f.psn = removeSpaces f.ff) ∧
    (c ≠ "" → c ≠ "a" → f.psn = c) := by
  have hok' : decompressFields st a b c d g u = .ok (f, st') :=
    (decompressStep_eq hsplit) ▸ hok
  obtain ⟨_, _, hpsn, _, _, _, _⟩ := decompressFields_ok hok'
  refine ⟨?_, ?_, ?_⟩
  · intro hc; rw [hpsn, hc]; rfl
  · intro hc; rw [hpsn, hc]; rfl
  · intro hc1 hc2; rw [hpsn]; simp [resolvePsn, hc1, hc2]

/-- C7 witness: the spec's examples — family "Open Sans", subfamily
"Bold", empty postScriptName gives "OpenSans-Bold"; the sentinel "a"
gives "OpenSans". -/
theorem decompress_psn_derivation_witness :
    decompressStep ⟨"", "", "0", "0"⟩ "Open Sans,Bold,,4,2," =
      .ok (⟨"Open Sans", "Bold", "OpenSans-Bold", 4, 2, "fs/OpenSans-Bold.otf"⟩,
           ⟨"Open Sans", "Bold", "4", "2"⟩) ∧
    (Font.mk "Open Sans" "Bold" "OpenSans-Bold" 4 2 "fs/OpenSans-Bold.otf").psn =
      removeSpaces ("Open Sans" ++ "-" ++ "Bold") ∧
    decompressStep ⟨"", "", "0", "0"⟩ "Open Sans,Bold,a,4,2," =
      .ok (⟨"Open Sans", "Bold", "OpenSans", 4, 2, "fs/OpenSans.otf"⟩,
           ⟨"Open Sans", "Bold", "4", "2"⟩) ∧
    (Font.mk "Open Sans" "Bold" "OpenSans" 4 2 "fs/OpenSans.otf").psn =
      removeSpaces "Open Sans" := by
  refine ⟨rfl, ?_, rfl, ?_⟩
  · exact (decompress_psn_derivation ⟨"", "", "0", "0"⟩ "Open Sans,Bold,,4,2,"
      "Open Sans" "Bold" "" "4" "2" "" _ _ rfl rfl).1 rfl
  · exact (decompress_psn_derivation ⟨"", "", "0", "0"⟩ "Open Sans,Bold,a,4,2,"
      "Open Sans" "Bold" "a" "4" "2" "" _ _ rfl rfl).2.1 rfl

/-- C8: in one decoded entry, an empty sourcePath field yields
"fs/" + postScriptName + ".otf", the sentinel "a" yields
"gf/" + postScriptName + ".otf" (with postScriptName the record's
resolved postScriptName), and any other value is used verbatim. -/
theorem decompress_url_derivation (st : DecSt) (e : String) (a b c d g u : String)
    (f : Font) (st' : DecSt) (hsplit : splitComma e = [a, b, c, d, g, u])
    (hok : decompressStep st e = .ok (f, st')) :
    (u = "" → f.url = "fs/" ++ f.psn ++ ".otf") ∧
    (u = "a" → f.url = "gf/" ++ f.psn ++ ".otf") ∧
    (u ≠ "" → u ≠ "a" → f.url = u) := by
  have hok' : decompressFields st a b c d g u = .ok (f, st') :=
    (decompressStep_eq hsplit) ▸ hok
  obtain ⟨_, _, _, hurl, _, _, _⟩ := decompressFields_ok hok'
  refine ⟨?_, ?_, ?_⟩
  · intro hu; rw [hurl, hu]; rfl
  · intro hu; rw [hurl, hu]; rfl
  · intro hu1 hu2; rw [hurl]; simp [resolveUrl, hu1, hu2]

/-- C8 witness: the spec's examples — empty sourcePath gives
`fs/<psn>.otf`, the sentinel "a" gives `gf/<psn>.otf`. -/
theorem decompress_url_derivation_witness :
    decompressStep ⟨"", "", "0", "0"⟩ "Ab,Cd,x,1,2," =
      .ok (⟨"Ab", "Cd", "x", 1, 2, "fs/x.otf"⟩, ⟨"Ab", "Cd", "1", "2"⟩) ∧
    (Font.mk "Ab" "Cd" "x" 1 2 "fs/x.otf").url =
      "fs/" ++ (Font.mk "Ab" "Cd" "x" 1 2 "fs/x.otf").psn ++ ".otf" ∧
    decompressStep ⟨"", "", "0", "0"⟩ "Ab,Cd,x,1,2,a" =
      .ok (⟨"Ab", "Cd", "x", 1, 2, "gf/x.otf"⟩, ⟨"Ab", "Cd", "1", "2"⟩) ∧
    (Font.mk "Ab" "Cd" "x" 1 2 "gf/x.otf").url =
      "gf/" ++ (Font.mk "Ab" "Cd" "x" 1 2 "gf/x.otf").psn ++ ".otf" := by
  refine ⟨rfl, ?_, rfl, ?_⟩
  · exact (decompress_url_derivation ⟨"", "", "0", "0"⟩ "Ab,Cd,x,1,2,"
      "Ab" "Cd" "x" "1" "2" "" _ _ rfl rfl).1 rfl
  · exact (decompress_url_derivation ⟨"", "", "0", "0"⟩ "Ab,Cd,x,1,2,a"
      "Ab" "Cd" "x" "1" "2" "a" _ _ rfl rfl).2.1 rfl

/-! ## Claim C9 -/

/-- C9: a patch rule whose find string is absent from its existing,
readable target file leaves the whole file tree untouched — the file is
not rewritten at all and no error is raised (the function returns the
tree unchanged). -/
theorem find_and_replace_noop (fs : FS) (path find repl content : String)
    (hfile : fs path = some content)
    (habsent : pyContains content.data find.data = false) :
    find_and_replace fs path find repl = fs := by
  unfold find_and_replace
  rw [hfile]
  simp [habsent]

/-- C9 witness: a concrete one-file tree and a find string that does not
occur in the file. -/
theorem find_and_replace_noop_witness :
    find_and_replace (fun p => if p = "f.js" then some "hello" else none)
        "f.js" "zz" "ww" =
      (fun p => if p = "f.js" then some "hello" else none) := by
  exact find_and_replace_noop _ "f.js" "zz" "ww" "hello" rfl rfl

/-! ## Claim C1 -/

/-- C1 (code bug): applying the full patch rule list twice is not a
no-op. The allow-any-port rule replaces its find string by the find
string followed by `||true`, so the find string is still present after
the first run and every further run appends another `||true`. Concretely,
on a tree whose pp bundle contains the find string once (and no other
rule's find string), the second application changes the file again. The
same holds for the force-enable rule on `("~yy")`. -/
theorem apply_patches_not_idempotent :
    (apply_patches "pp.js"
        (fun p => if p = "www.photopea.com/pp.js" then some portFind else none))
        "www.photopea.com/pp.js" = some (portFind ++ "||true") ∧
    (apply_patches "pp.js" (apply_patches "pp.js"
        (fun p => if p = "www.photopea.com/pp.js" then some portFind else none)))
        "www.photopea.com/pp.js" = some (portFind ++ "||true||true") ∧
    portFind ++ "||true" ≠ portFind ++ "||true||true" := by
  refine ⟨rfl, rfl, by decide⟩

/-! ## Claim C2 -/

/-- C2 counterexample: a one-font catalog whose destination file already
exists locally; `update_fonts` submits nothing to the worker pool, so the
catalog item is skipped (not attempted, not overwritten), refuting the
claim that every font record is attempted once per run. -/
theorem update_fonts_skips_existing :
    decompress_font_list ["Ab,Cd,x,1,2,u"] = .ok [⟨"Ab", "Cd", "x", 1, 2, "u"⟩] ∧
    update_fonts ["Ab,Cd,x,1,2,u"] (fun _ => true) = .ok [] := by
  exact ⟨rfl, rfl⟩

/-- C2 amended: `update_fonts` submits to the worker pool exactly the
decoded fonts whose destination path does not yet exist; a font whose
file exists is skipped entirely rather than overwritten. -/
theorem update_fonts_submits_missing (flist : List String) (isfile : String → Bool)
    (fonts : List Font) (hok : decompress_font_list flist = .ok fonts) :
    ∃ submitted, update_fonts flist isfile = .ok submitted ∧
      ∀ f, f ∈ submitted ↔ f ∈ fonts ∧ isfile (fontLocalPath f) = false := by
  refine ⟨fonts.filter (fun f => !(isfile (fontLocalPath f))), ?_, ?_⟩
  · unfold update_fonts
    rw [hok]
  · intro f
    simp [List.mem_filter]

/-- C2 amended witness: with no file existing locally, the one decoded
font is submitted. -/
theorem update_fonts_submits_missing_witness :
    ∃ submitted, update_fonts ["Ab,Cd,x,1,2,u"] (fun _ => false) = .ok submitted ∧
      ∀ f, f ∈ submitted ↔
        f ∈ [Font.mk "Ab" "Cd" "x" 1 2 "u"] ∧ (fun _ => false) (fontLocalPath f) = false := by
  exact update_fonts_submits_missing ["Ab,Cd,x,1,2,u"] (fun _ => false)
    [⟨"Ab", "Cd", "x", 1, 2, "u"⟩] rfl

/-! ## Claim C3 -/

/-- C3 counterexample: a transport-level error during the transfer (the
stream raises while fetching the first chunk, after the 200 status was
seen and the destination was opened for writing) leaves the preexisting
file truncated to the already-delivered chunks — here empty — rather
than byte-identical. -/
theorem download_file_partial_overwrite :
    download_file (.resp 200 ["NEW"] (some 0)) (some "OLD") = some "" ∧
    (some "" : Option String) ≠ some "OLD" := by
  exact ⟨rfl, by decide⟩

/-- C3 amended: a non-200 status or a transport error raised by the
request itself leaves the local file unchanged, and a completed stream
overwrites it with the full body; but a transport error during chunk
iteration leaves the file containing exactly the chunks delivered before
the error (the overwrite is not atomic). -/
theorem download_file_failure_behaviour (old : Option String) (status : Nat)
    (chunks : List String) :
    download_file .connError old = old ∧
    (status ≠ 200 → ∀ interrupt, download_file (.resp status chunks interrupt) old = old) ∧
    (∀ n, download_file (.resp 200 chunks (some n)) old =
      some (String.join (chunks.take n))) ∧
    download_file (.resp 200 chunks none) old = some (String.join chunks) := by
  refine ⟨rfl, ?_, ?_, ?_⟩
  · intro hs interrupt
    unfold download_file
    simp [hs]
  · intro n
    unfold download_file
    simp
  · unfold download_file
    simp

/-- C3 amended witness: concrete instances — a 404 leaves the old file,
a mid-stream failure after one of two chunks leaves just that chunk. -/
theorem download_file_failure_behaviour_witness :
    download_file (.resp 404 ["A", "B"] none) (some "OLD") = some "OLD" ∧
    download_file (.resp 200 ["A", "B"] (some 1)) (some "OLD") =
      some (String.join (["A", "B"].take 1)) := by
  exact ⟨(download_file_failure_behaviour (some "OLD") 404 ["A", "B"]).2.1
      (by decide) none,
    (download_file_failure_behaviour (some "OLD") 200 ["A", "B"]).2.2.1 1⟩

/-! ## Claim C4 -/

/-- the returned dictionary of `download_core_files` is the found-paths
list. -/
theorem download_core_files_dynamic_paths (content : String) :
    (download_core_files content).dynamic_paths = found_dynamic_paths content := rfl

/-- the function `download_core_files` always downloads the separate `index.html`
fetch plus the 19 static items plus one item per found dynamic path. -/
theorem download_core_files_length (content : String) :
    (download_core_files content).downloads.length =
      20 + (found_dynamic_paths content).length := by
  unfold download_core_files
  simp [initial_urls]
  omega

/-- when the database pattern has no match, no `"dbs"` key is in the
found-paths list. -/
theorem found_paths_no_dbs (content : String)
    (h : reSearch "code/dbs/DBS" "js" content = none) :
    (found_dynamic_paths content).any (fun x => x.1 = "dbs") = false := by
  unfold found_dynamic_paths
  rw [h]
  cases h1 : reSearch "style/all" "css" content <;>
    cases h2 : reSearch "code/ext/ext" "js" content <;>
    cases h4 : reSearch "code/pp/pp" "js" content <;>
    rfl

/-- when the application-logic pattern has no match, no `"pp"` key is in
the found-paths list. -/
theorem found_paths_no_pp (content : String)
    (h : reSearch "code/pp/pp" "js" content = none) :
    (found_dynamic_paths content).any (fun x => x.1 = "pp") = false := by
  unfold found_dynamic_paths
  rw [h]
  cases h1 : reSearch "style/all" "css" content <;>
    cases h2 : reSearch "code/ext/ext" "js" content <;>
    cases h3 : reSearch "code/dbs/DBS" "js" content <;>
    rfl

/-- C4 counterexample: on a bootstrap document with no pattern matches,
resolution reports failure and `main` aborts — but the core-file bulk
download has already run: `download_core_files` performed its 20
downloads (the `index.html` fetch plus the 19 static items) before the
completeness check, so the claim that no downstream phase, including the
core-file bulk download, executes is false. -/
theorem resolver_failure_counterexample :
    main_aborts (download_core_files "").dynamic_paths = true ∧
    (download_core_files "").downloads.length = 20 := by
  exact ⟨rfl, rfl⟩

/-- C4 amended: if the bootstrap document lacks a match for the database
or the application-logic pattern, `main` aborts right after step 1 and
no later phase (database parse, manifest generation, default fonts,
patching) executes — but the core-file bulk download, which runs inside
`download_core_files` before the check, still downloads the whole static
item list. -/
theorem resolver_failure_aborts_after_core_batch (content : String)
    (hmiss : reSearch "code/dbs/DBS" "js" content = none ∨
             reSearch "code/pp/pp" "js" content = none) :
    main_aborts (download_core_files content).dynamic_paths = true ∧
    main_phases content = ["download_core_files"] ∧
    20 ≤ (download_core_files content).downloads.length := by
  have habort : main_aborts (download_core_files content).dynamic_paths = true := by
    rw [download_core_files_dynamic_paths]
    unfold main_aborts
    rcases hmiss with h | h
    · rw [found_paths_no_dbs content h]
      simp
    · rw [found_paths_no_pp content h]
      simp
  refine ⟨habort, ?_, ?_⟩
  · unfold main_phases
    rw [habort]
    rfl
  · rw [download_core_files_length]
    omega

/-- C4 amended witness: the empty bootstrap document. -/
theorem resolver_failure_aborts_after_core_batch_witness :
    main_aborts (download_core_files "").dynamic_paths = true ∧
    main_phases "" = ["download_core_files"] ∧
    20 ≤ (download_core_files "").downloads.length := by
  exact resolver_failure_aborts_after_core_batch "" (Or.inl rfl)

/-! ## Claim C5 -/

/-- C5 counterexample: a manifest referencing one template whose
download fails and which was not previously cached. After reconcile the
template root is empty, yet the should-exist set contains the referenced
local path, so the files on disk are not exactly the should-exist set. -/
theorem update_templates_counterexample :
    update_templates [⟨"X.psd", ""⟩] (fun _ => false) [] = [] ∧
    [TplEntry.mk "X.psd" ""].map tplLocal =
      ["www.photopea.com/templates/file/pp-resources/X.psd"] := by
  exact ⟨rfl, rfl⟩

/-- C5 amended: after `update_templates`, a path exists iff it existed
before or was written by a successful template download, and — when it
is a `*.psd` file under the template root (the only files the pruning
glob sees) — it is referenced by the manifest. So unreferenced `.psd`
files under the root are deleted and referenced files are never deleted,
but a referenced file that was absent and failed to download does not
exist afterwards. -/
theorem update_templates_membership (tpls : List TplEntry) (writes : String → Bool)
    (files0 : List String) (p : String) :
    p ∈ update_templates tpls writes files0 ↔
      ((p ∈ files0 ∨ ∃ t ∈ tpls, writes (tplRemote t) = true ∧ tplLocal t = p) ∧
       (isTplPsd p = true → ∃ t ∈ tpls, tplLocal t = p)) := by
  have hC : (isTplPsd p = false ∨ (∃ a ∈ tpls, tplLocal a = p)) ↔
      (isTplPsd p = true → ∃ a ∈ tpls, tplLocal a = p) := by
    cases h : isTplPsd p <;> simp
  have hB : (∃ a, (∃ t ∈ tpls, tplRemote t = a ∧ tplLocal t = p) ∧ writes a = true) ↔
      (∃ t ∈ tpls, writes (tplRemote t) = true ∧ tplLocal t = p) := by
    constructor
    · rintro ⟨a, ⟨t, ht, rfl, hlp⟩, hw⟩
      exact ⟨t, ht, hw, hlp⟩
    · rintro ⟨t, ht, hw, hlp⟩
      exact ⟨tplRemote t, ⟨t, ht, rfl, hlp⟩, hw⟩
  unfold update_templates
  simp [List.mem_filter, List.mem_append, List.mem_map]
  rw [hC, hB, ← or_and_right]

/-- C5 amended witness: the spec's pruning example — local
`{A.psd, B.psd}`, manifest referencing only `A.psd`, all downloads
succeeding: `A.psd` remains and `B.psd` is removed. -/
theorem update_templates_membership_witness :
    "www.photopea.com/templates/file/pp-resources/A.psd" ∈
      update_templates [⟨"A.psd", ""⟩] (fun _ => true)
        ["www.photopea.com/templates/file/pp-resources/A.psd",
         "www.photopea.com/templates/file/pp-resources/B.psd"] ∧
    "www.photopea.com/templates/file/pp-resources/B.psd" ∉
      update_templates [⟨"A.psd", ""⟩] (fun _ => true)
        ["www.photopea.com/templates/file/pp-resources/A.psd",
         "www.photopea.com/templates/file/pp-resources/B.psd"] := by
  constructor
  · refine (update_templates_membership _ _ _ _).mpr ⟨Or.inl (by simp), ?_⟩
    intro _
    exact ⟨⟨"A.psd", ""⟩, by simp, rfl⟩
  · intro h
    obtain ⟨-, h2⟩ := (update_templates_membership _ _ _ _).mp h
    obtain ⟨t, ht, hloc⟩ := h2 (by decide)
    rw [List.mem_singleton] at ht
    subst ht
    exact absurd hloc (by decide)

/-! ## Claim C10 -/

/-- nonempty all-digit string (a plain decimal integer literal). -/
def isDigitStr (s : String) : Bool := !s.data.isEmpty && s.data.all isDigitChar

/-- the precondition of the claim for one entry: six comma-separated
fields whose flags and category fields are empty (to be inherited) or
decimal digit strings. -/
def goodEntry (e : String) : Bool :=
  match splitComma e with
  | [_a, _b, _c, d, g, _u] => (d == "" || isDigitStr d) && (g == "" || isDigitStr g)
  | _ => false

theorem digit_not_space {c : Char} (h : isDigitChar c = true) : isSpaceChar c = false := by
  unfold isDigitChar at h
  unfold isSpaceChar
  simp at h ⊢
  omega

theorem dropWhile_space_of_digits {l : List Char} (h : l.all isDigitChar = true) :
    l.dropWhile isSpaceChar = l := by
  cases l with
  | nil => rfl
  | cons c rest =>
    rw [List.all_cons, Bool.and_eq_true] at h
    rw [List.dropWhile_cons, digit_not_space h.1]
    simp

theorem pyStrip_digits {l : List Char} (h : l.all isDigitChar = true) :
    pyStrip l = l := by
  unfold pyStrip
  rw [dropWhile_space_of_digits h]
  have hrev : l.reverse.all isDigitChar = true := by
    rw [List.all_reverse]
    exact h
  rw [dropWhile_space_of_digits hrev, List.reverse_reverse]

theorem pyIntRestF_digits : ∀ {l : List Char}, l.all isDigitChar = true →
    pyIntRestF false l = true := by
  intro l
  induction l with
  | nil => intro _; rfl
  | cons c rest ih =>
    intro h
    rw [List.all_cons, Bool.and_eq_true] at h
    unfold pyIntRestF
    have hu : ¬(c = '_') := by
      intro heq
      subst heq
      exact absurd h.1 (by decide)
    rw [if_neg hu, h.1, ih h.2]
    rfl

/-- a nonempty digit string parses successfully with `int()`. -/
theorem pyInt_digitStr {s : String} (h : isDigitStr s = true) :
    ∃ n, pyInt s = some n := by
  unfold isDigitStr at h
  rw [Bool.and_eq_true] at h
  obtain ⟨hne, hall⟩ := h
  unfold pyInt
  rw [pyStrip_digits hall]
  cases hdata : s.data with
  | nil => rw [hdata] at hne; exact absurd hne (by decide)
  | cons c rest =>
    rw [hdata] at hall
    rw [List.all_cons, Bool.and_eq_true] at hall
    have hvalid : pyIntBodyValid (c :: rest) = true := by
      show (isDigitChar c && pyIntRestF false rest) = true
      rw [hall.1, pyIntRestF_digits hall.2]
      rfl
    have hm : c ≠ '-' := by
      intro heq; subst heq; exact absurd hall.1 (by decide)
    have hp : c ≠ '+' := by
      intro heq; subst heq; exact absurd hall.1 (by decide)
    split
    next rest1 heq => exact absurd (List.cons.injEq .. ▸ heq).1 hm
    next rest1 heq => exact absurd (List.cons.injEq .. ▸ heq).1 hp
    next => rw [if_pos hvalid]; exact ⟨_, rfl⟩

/-- a successful flag/category inheritance stays a digit string. -/
theorem inheritF_digitStr {cur prev : String}
    (hcur : (cur == "" || isDigitStr cur) = true) (hprev : isDigitStr prev = true) :
    isDigitStr (inheritF cur prev) = true := by
  unfold inheritF
  by_cases hd : cur = ""
  · rw [if_pos hd]; exact hprev
  · rw [if_neg hd]
    simp only [Bool.or_eq_true, beq_iff_eq] at hcur
    rcases hcur with h | h
    · exact absurd h hd
    · exact h

/-- a step on a good entry from digit-string state succeeds and keeps
the state's flag/category strings digit strings. -/
theorem decompressStep_total {st : DecSt} {e : String}
    (hgood : goodEntry e = true) (hflg : isDigitStr st.pflg = true)
    (hcat : isDigitStr st.pcat = true) :
    ∃ f st', decompressStep st e = .ok (f, st') ∧
      isDigitStr st'.pflg = true ∧ isDigitStr st'.pcat = true := by
  unfold goodEntry at hgood
  split at hgood
  next a b c d g u heq =>
    rw [Bool.and_eq_true] at hgood
    have hflg' : isDigitStr (inheritF d st.pflg) = true :=
      inheritF_digitStr hgood.1 hflg
    have hcat' : isDigitStr (inheritF g st.pcat) = true :=
      inheritF_digitStr hgood.2 hcat
    obtain ⟨n1, hn1⟩ := pyInt_digitStr hflg'
    obtain ⟨n2, hn2⟩ := pyInt_digitStr hcat'
    rw [decompressStep_eq heq]
    unfold decompressFields
    rw [hn1, hn2]
    exact ⟨_, _, rfl, hflg', hcat'⟩
  next => exact absurd hgood (by decide)

/-- on a list of good entries the whole decode succeeds, one record per
entry. -/
theorem decompressGo_total : ∀ (flist : List String) (st : DecSt),
    flist.all goodEntry = true → isDigitStr st.pflg = true →
    isDigitStr st.pcat = true →
    ∃ recs, decompressGo st flist = .ok recs ∧ recs.length = flist.length := by
  intro flist
  induction flist with
  | nil => intro st _ _ _; exact ⟨[], rfl, rfl⟩
  | cons e rest ih =>
    intro st hall hflg hcat
    rw [List.all_cons, Bool.and_eq_true] at hall
    obtain ⟨f, st1, hstep, hflg1, hcat1⟩ := decompressStep_total hall.1 hflg hcat
    obtain ⟨fs, hgo, hlen⟩ := ih st1 hall.2 hflg1 hcat1
    refine ⟨f :: fs, ?_, by simp [hlen]⟩
    simp only [decompressGo, hstep, hgo]

/-- C10: the decoder yields exactly one record per input entry and is
total when every entry has six comma-separated fields and digit-string
(or inherited) flags and category values; an entry with five fields, or
a non-numeric flags value, raises, and the exception propagates out of
`generate_font_manifest` (the decode loop is outside its `try`), so
manifest generation aborts instead of skipping the bad entry. -/
theorem decompress_total_on_good_input :
    (∀ flist, flist.all goodEntry = true →
       ∃ recs, decompress_font_list flist = .ok recs ∧
         recs.length = flist.length) ∧
    decompress_font_list ["a,b,c,d,e"] = .error (.splitArity "a,b,c,d,e") ∧
    generate_font_manifest ["A,B,C,x,0,u"] = .error (.intParse "x") := by
  refine ⟨?_, rfl, rfl⟩
  intro flist hall
  exact decompressGo_total flist ⟨"", "", "0", "0"⟩ hall rfl rfl

/-- C10 witness: a concrete good one-entry list decodes to one record. -/
theorem decompress_total_on_good_input_witness :
    ∃ recs, decompress_font_list ["Ab,Cd,,4,2,"] = .ok recs ∧ recs.length = 1 := by
  exact decompress_total_on_good_input.1 ["Ab,Cd,,4,2,"] (by decide)

end Updater
